import Mathlib

/-!
Verification of the B6Tok caching aggregation layer.

The definitions below are a shallow embedding of `src/api/index.js` (and its
near-duplicate `src/unnamed/part_000`): the in-memory TTL cache (`getCached`,
`setCache`), the record normalizer used by the `/api/search` and
`/api/trending` handlers, the recursive library tree builder
(`readComicsTree`), and the request-handling control flow of the two
video endpoints.  JavaScript absence (`undefined`) is modelled with `Option`;
JavaScript truthiness of strings and numbers is modelled explicitly.
-/

namespace B6Tok

/-- Time in milliseconds, as produced by `Date.now()`. -/
abbrev Time := Nat

/-- `const CACHE_TTL = 5 * 60 * 1000;` -/
def CACHE_TTL : Nat := 5 * 60 * 1000

/-- One entry of the JS `Map`: `{ data, expiry }` as written by `setCache`. -/
structure CacheEntry (α : Type) where
  data : α
  expiry : Time
deriving Repr, DecidableEq

/-- The cache `Map`, modelled as an association list keyed by string.
`Map.set` replaces the entry for an existing key, so lookup by key is the
only observable structure. -/
def Cache (α : Type) := List (String × CacheEntry α)

instance : Inhabited (Cache α) := ⟨[]⟩

/-- `cache.get(key)`: lookup by key. -/
def cacheFind : Cache α → String → Option (CacheEntry α)
  | [], _ => none
  | (k', e) :: rest, k => if k' = k then some e else cacheFind rest k

/-- `cache.delete(key)`: remove the entry for `key`. -/
def eraseKey (c : Cache α) (k : String) : Cache α :=
  c.filter (fun p => p.1 != k)

/-- `setCache(key, data)`: `cache.set(key, { data, expiry: Date.now() + CACHE_TTL })`.
`Map.set` overwrites any existing entry for the key. -/
def setCache (c : Cache α) (k : String) (d : α) (now : Time) : Cache α :=
  (k, ⟨d, now + CACHE_TTL⟩) :: eraseKey c k

/-- `getCached(key)`:
```
const item = cache.get(key);
if (!item) return null;
if (Date.now() > item.expiry) { cache.delete(key); return null; }
return item.data;
```
Returns the read result together with the cache state after the read
(the read deletes an expired entry). -/
def getCached (c : Cache α) (k : String) (now : Time) : Option α × Cache α :=
  match cacheFind c k with
  | none => (none, c)
  | some item =>
      if now > item.expiry then (none, eraseKey c k) else (some item.data, c)

theorem cacheFind_eraseKey (c : Cache α) (k : String) :
    cacheFind (eraseKey c k) k = none := by
  induction c with
  | nil => rfl
  | cons p rest ih =>
      obtain ⟨k', e⟩ := p
      by_cases h : k' = k
      · simpa [eraseKey, List.filter, h] using ih
      · have hb : (k' != k) = true := by simp [bne, h]
        simpa [eraseKey, List.filter, hb, cacheFind, h] using ih

theorem cacheFind_setCache (c : Cache α) (k : String) (d : α) (t : Time) :
    cacheFind (setCache c k d t) k = some ⟨d, t + CACHE_TTL⟩ := by
  simp [setCache, cacheFind]

/-- C1 counterexample: the expiry boundary is NOT exclusive.  A value stored
at time `t = 0` is still returned by `getCached` at exactly `t' = t + CACHE_TTL`
(the code expires only when `Date.now() > item.expiry`, strictly), refuting the
claim that a read at `t' = t + w` finds the entry expired. -/
theorem getCached_at_exact_expiry_returns_value :
    (getCached (setCache ([] : Cache Nat) "k" 42 0) "k" (0 + CACHE_TTL)).1 = some 42 ∧
    (getCached (setCache ([] : Cache Nat) "k" 42 0) "k" (0 + CACHE_TTL)).1 ≠ none := by
  constructor
  · rfl
  · intro h
    simp [getCached, cacheFind_setCache] at h

/-- C1 (amended): for every key, a value stored by `setCache` at time `t` is
returned unchanged by `getCached` at any read time `t' ≤ t + CACHE_TTL`
(`CACHE_TTL = 300000` ms), and `getCached` returns absent at any
`t' > t + CACHE_TTL`; the boundary is inclusive, and at an expired read the
entry is deleted at read time. -/
theorem getCached_setCache_ttl {α : Type} (c : Cache α) (k : String) (d : α)
    (t t' : Time) :
    (t' ≤ t + CACHE_TTL → (getCached (setCache c k d t) k t').1 = some d) ∧
    (t + CACHE_TTL < t' →
      (getCached (setCache c k d t) k t').1 = none ∧
      cacheFind (getCached (setCache c k d t) k t').2 k = none) := by
  constructor
  · intro h
    simp [getCached, cacheFind_setCache, Nat.not_lt.mpr h]
  · intro h
    refine ⟨?_, ?_⟩
    · simp [getCached, cacheFind_setCache, h]
    · have : (getCached (setCache c k d t) k t').2 = eraseKey (setCache c k d t) k := by
        simp [getCached, cacheFind_setCache, h]
      rw [this]
      exact cacheFind_eraseKey _ _

/-- Witness for C1: concrete fresh read at `t' = 5` and expired read at
`t' = CACHE_TTL + 1`, both on a value stored at `t = 0`. -/
theorem getCached_setCache_ttl_witness :
    (getCached (setCache ([] : Cache Nat) "k" 42 0) "k" 5).1 = some 42 ∧
    (getCached (setCache ([] : Cache Nat) "k" 42 0) "k" (CACHE_TTL + 1)).1 = none :=
  ⟨(getCached_setCache_ttl [] "k" 42 0 5).1 (by decide),
   ((getCached_setCache_ttl [] "k" 42 0 (CACHE_TTL + 1)).2 (by decide)).1⟩

/-! ## Record normalizer

Model of the map callback shared by `/api/search` (lines 155-176) and
`/api/trending` (lines 236-256): `undefined`/missing JS fields are `none`;
the JS `a || b` operator on strings takes `b` when `a` is absent or `""`,
and on numbers takes `b` when `a` is absent or `0`. -/

/-- JS `a || b` where both sides are possibly-absent strings (used for
`v.video_id || v.aweme_id` and `v.cover || v.origin_cover`). -/
def jsOrStrOpt (a b : Option String) : Option String :=
  match a with
  | some s => if s = "" then b else some s
  | none => b

/-- JS `a || d` with a string default (used for `v.title || ""` etc.). -/
def jsOrStr (a : Option String) (d : String) : String :=
  match a with
  | some s => if s = "" then d else s
  | none => d

/-- JS `a || d` with a numeric default (used for `v.duration || 0` etc.). -/
def jsOrInt (a : Option Int) (d : Int) : Int :=
  match a with
  | some n => if n = 0 then d else n
  | none => d

/-- JS truthiness of a possibly-absent string (used by `.filter(v => v.video_url)`). -/
def truthyStr : Option String → Bool
  | some s => s != ""
  | none => false

/-- The nested `author` object of an upstream record. -/
structure UpstreamAuthor where
  unique_id : Option String
  nickname : Option String
  avatar : Option String
deriving Repr, DecidableEq

/-- One upstream video record as consumed by the map callback; every field the
callback touches, each possibly absent. -/
structure Upstream where
  video_id : Option String
  aweme_id : Option String
  play : Option String
  wmplay : Option String
  title : Option String
  author : Option UpstreamAuthor
  cover : Option String
  origin_cover : Option String
  duration : Option Int
  digg_count : Option Int
  comment_count : Option Int
  share_count : Option Int
  play_count : Option Int
  create_time : Option Int
deriving Repr, DecidableEq

/-- An upstream record with every field absent. -/
def emptyUpstream : Upstream :=
  ⟨none, none, none, none, none, none, none, none, none, none, none, none, none, none⟩

/-- `author` sub-object of the canonical VideoRecord. -/
structure AuthorRecord where
  username : String
  nickname : String
  avatar : String
deriving Repr, DecidableEq

/-- `stats` sub-object of the canonical VideoRecord. -/
structure StatsRecord where
  likes : Int
  comments : Int
  shares : Int
  plays : Int
deriving Repr, DecidableEq

/-- The canonical VideoRecord produced by the map callback.  Fields built
without a default (`id`, `video_url`, `video_url_no_wm`, `cover`,
`create_time`) stay `Option`: the callback can leave them `undefined`. -/
structure VideoRecord where
  id : Option String
  video_url : Option String
  video_url_no_wm : Option String
  caption : String
  author : AuthorRecord
  cover : Option String
  duration : Int
  stats : StatsRecord
  create_time : Option Int
deriving Repr, DecidableEq

/-- The map callback of `/api/search` (the `/api/trending` one is identical
except that it omits `create_time`). -/
def normalizeVideo (v : Upstream) : VideoRecord where
  id := jsOrStrOpt v.video_id v.aweme_id
  video_url := v.play
  video_url_no_wm := v.wmplay
  caption := jsOrStr v.title ""
  author :=
    { username := jsOrStr (v.author.bind UpstreamAuthor.unique_id) "unknown"
      nickname := jsOrStr (v.author.bind UpstreamAuthor.nickname) "Unknown User"
      avatar := jsOrStr (v.author.bind UpstreamAuthor.avatar) "" }
  cover := jsOrStrOpt v.cover v.origin_cover
  duration := jsOrInt v.duration 0
  stats :=
    { likes := jsOrInt v.digg_count 0
      comments := jsOrInt v.comment_count 0
      shares := jsOrInt v.share_count 0
      plays := jsOrInt v.play_count 0 }
  create_time := v.create_time

/-- `data.data.videos.map(...).filter(v => v.video_url)`. -/
def normalizeList (vs : List Upstream) : List VideoRecord :=
  (vs.map normalizeVideo).filter (fun r => truthyStr r.video_url)

/-- A possibly-absent JS string that is falsy: absent or empty. -/
def strOptFalsy (o : Option String) : Prop := o = none ∨ o = some ""

/-- A possibly-absent JS number that is falsy: absent or zero. -/
def intOptFalsy (o : Option Int) : Prop := o = none ∨ o = some 0

instance (o : Option String) : Decidable (strOptFalsy o) := by
  unfold strOptFalsy; infer_instance

instance (o : Option Int) : Decidable (intOptFalsy o) := by
  unfold intOptFalsy; infer_instance

/-- An upstream record whose only present field is a non-empty `play` URL. -/
def playOnly : Upstream := { emptyUpstream with play := some "x" }

theorem jsOrStr_falsy {a : Option String} (d : String) (h : strOptFalsy a) :
    jsOrStr a d = d := by
  rcases h with h | h <;> simp [h, jsOrStr]

theorem jsOrInt_falsy {a : Option Int} (d : Int) (h : intOptFalsy a) :
    jsOrInt a d = d := by
  rcases h with h | h <;> simp [h, jsOrInt]

theorem jsOrStrOpt_falsy {a : Option String} (b : Option String) (h : strOptFalsy a) :
    jsOrStrOpt a b = b := by
  rcases h with h | h <;> simp [h, jsOrStrOpt]

theorem jsOrStrOpt_truthy {a b : Option String} (h : ¬ strOptFalsy a) :
    jsOrStrOpt a b = a := by
  match a with
  | none => exact absurd (Or.inl rfl) h
  | some s =>
      have hs : s ≠ "" := fun hs => h (Or.inr (by rw [hs]))
      simp [jsOrStrOpt, hs]

theorem jsOrStrOpt_eq_none {a b : Option String} :
    jsOrStrOpt a b = none ↔ strOptFalsy a ∧ b = none := by
  match a with
  | none => simp [jsOrStrOpt, strOptFalsy]
  | some s =>
      by_cases hs : s = ""
      · simp [jsOrStrOpt, hs, strOptFalsy]
      · simp [jsOrStrOpt, hs, strOptFalsy]

/-- C2 counterexample: an upstream record whose only present field is
`play = "x"` survives the filter, yet its normalized record has `id` and
`cover` both absent — refuting "id and cover are never absent from a
normalized record". -/
theorem normalized_id_cover_can_be_absent :
    (normalizeVideo playOnly).id = none ∧
    (normalizeVideo playOnly).cover = none ∧
    normalizeList [playOnly] = [normalizeVideo playOnly] := by
  refine ⟨rfl, rfl, ?_⟩
  decide

/-- C2 (amended): the defaulted fields (`caption`, `author.*`, `duration`,
`stats.*`) of a normalized record are total by construction, but `id`,
`cover`, `video_url_no_wm` and `create_time` may be absent: `id` is absent
exactly when the video-id field is falsy and the alternate id field is
absent, and `cover` is absent exactly when the primary cover field is falsy
and the origin-cover fallback is absent. -/
theorem normalizeVideo_absence (v : Upstream) :
    ((normalizeVideo v).id = none ↔ strOptFalsy v.video_id ∧ v.aweme_id = none) ∧
    ((normalizeVideo v).cover = none ↔ strOptFalsy v.cover ∧ v.origin_cover = none) ∧
    (normalizeVideo v).video_url_no_wm = v.wmplay ∧
    (normalizeVideo v).create_time = v.create_time :=
  ⟨jsOrStrOpt_eq_none, jsOrStrOpt_eq_none, rfl, rfl⟩

/-- C3: a record is in the normalized output only if its `video_url` is
present and non-empty; the output is the filter of the mapped list (hence a
sublist of it, order-preserving); and a record whose upstream `play` is
absent or empty is never retained. -/
theorem normalizeList_retention (vs : List Upstream) (r : VideoRecord) (v : Upstream) :
    (r ∈ normalizeList vs → ¬ strOptFalsy r.video_url) ∧
    (normalizeList vs).Sublist (vs.map normalizeVideo) ∧
    (strOptFalsy v.play → normalizeVideo v ∉ normalizeList vs) := by
  have keyFact : ∀ r' : VideoRecord, r' ∈ normalizeList vs → ¬ strOptFalsy r'.video_url := by
    intro r' hr' hf
    have ht : truthyStr r'.video_url = true := (List.mem_filter.mp hr').2
    rcases hf with h | h <;> simp [h, truthyStr] at ht
  refine ⟨keyFact r, List.filter_sublist _, ?_⟩
  intro hplay hmem
  exact keyFact _ hmem (by simpa [normalizeVideo] using hplay)

/-- Witness for C3 at concrete inputs: the record normalized from `playOnly`
is retained and has a non-falsy `video_url`, while the record normalized from
the all-absent upstream record is not retained. -/
theorem normalizeList_retention_witness :
    ¬ strOptFalsy (normalizeVideo playOnly).video_url ∧
    normalizeVideo emptyUpstream ∉ normalizeList [playOnly] :=
  ⟨(normalizeList_retention [playOnly] (normalizeVideo playOnly) emptyUpstream).1
      (by decide),
   (normalizeList_retention [playOnly] (normalizeVideo playOnly) emptyUpstream).2.2
      (by decide)⟩

/-- C6: every default of the normalizer, exactly as the code resolves them:
`caption` defaults to `""`, `author.username` to `"unknown"`, `author.nickname`
to `"Unknown User"`, `author.avatar` to `""` whenever the upstream string is
absent or empty (including an absent `author` object); `cover` is the primary
cover field when truthy, else the origin-cover field; `duration` and each
stats field default to `0` whenever the upstream number is absent or `0`. -/
theorem normalizeVideo_defaults (v : Upstream) :
    (strOptFalsy v.title → (normalizeVideo v).caption = "") ∧
    (strOptFalsy (v.author.bind UpstreamAuthor.unique_id) →
      (normalizeVideo v).author.username = "unknown") ∧
    (strOptFalsy (v.author.bind UpstreamAuthor.nickname) →
      (normalizeVideo v).author.nickname = "Unknown User") ∧
    (strOptFalsy (v.author.bind UpstreamAuthor.avatar) →
      (normalizeVideo v).author.avatar = "") ∧
    (¬ strOptFalsy v.cover → (normalizeVideo v).cover = v.cover) ∧
    (strOptFalsy v.cover → (normalizeVideo v).cover = v.origin_cover) ∧
    (intOptFalsy v.duration → (normalizeVideo v).duration = 0) ∧
    (intOptFalsy v.digg_count → (normalizeVideo v).stats.likes = 0) ∧
    (intOptFalsy v.comment_count → (normalizeVideo v).stats.comments = 0) ∧
    (intOptFalsy v.share_count → (normalizeVideo v).stats.shares = 0) ∧
    (intOptFalsy v.play_count → (normalizeVideo v).stats.plays = 0) :=
  ⟨fun h => jsOrStr_falsy _ h, fun h => jsOrStr_falsy _ h, fun h => jsOrStr_falsy _ h,
   fun h => jsOrStr_falsy _ h, fun h => jsOrStrOpt_truthy h, fun h => jsOrStrOpt_falsy _ h,
   fun h => jsOrInt_falsy _ h, fun h => jsOrInt_falsy _ h, fun h => jsOrInt_falsy _ h,
   fun h => jsOrInt_falsy _ h, fun h => jsOrInt_falsy _ h⟩

/-- An upstream record with `digg_count = 0` present, no `author`, no `cover`
but an `origin_cover` fallback. -/
def diggZero : Upstream :=
  { emptyUpstream with digg_count := some 0, origin_cover := some "oc" }

/-- Witness for C6: all defaults evaluated on `diggZero` (with `digg_count`
present and `0`) and on the all-absent record (with `digg_count` absent) —
both give `stats.likes = 0`. -/
theorem normalizeVideo_defaults_witness :
    (normalizeVideo diggZero).caption = "" ∧
    (normalizeVideo diggZero).author.username = "unknown" ∧
    (normalizeVideo diggZero).author.nickname = "Unknown User" ∧
    (normalizeVideo diggZero).author.avatar = "" ∧
    (normalizeVideo diggZero).cover = some "oc" ∧
    (normalizeVideo diggZero).duration = 0 ∧
    (normalizeVideo diggZero).stats.likes = 0 ∧
    (normalizeVideo emptyUpstream).stats.likes = 0 ∧
    (normalizeVideo diggZero).stats.comments = 0 ∧
    (normalizeVideo diggZero).stats.shares = 0 ∧
    (normalizeVideo diggZero).stats.plays = 0 :=
  ⟨(normalizeVideo_defaults diggZero).1 (by decide),
   (normalizeVideo_defaults diggZero).2.1 (by decide),
   (normalizeVideo_defaults diggZero).2.2.1 (by decide),
   (normalizeVideo_defaults diggZero).2.2.2.1 (by decide),
   (normalizeVideo_defaults diggZero).2.2.2.2.2.1 (by decide),
   (normalizeVideo_defaults diggZero).2.2.2.2.2.2.1 (by decide),
   (normalizeVideo_defaults diggZero).2.2.2.2.2.2.2.1 (by decide),
   (normalizeVideo_defaults emptyUpstream).2.2.2.2.2.2.2.1 (by decide),
   (normalizeVideo_defaults diggZero).2.2.2.2.2.2.2.2.1 (by decide),
   (normalizeVideo_defaults diggZero).2.2.2.2.2.2.2.2.2.1 (by decide),
   (normalizeVideo_defaults diggZero).2.2.2.2.2.2.2.2.2.2 (by decide)⟩

/-! ## Library tree builder

Model of `readComicsTree` (`src/api/index.js` lines 45-86).  The filesystem
is a finite tree: a directory listing is either unreadable (models
`fs.readdirSync` throwing, caught by the `try`/`catch` which leaves
`entries = []`) or a finite sequence of named entries in readdir order.
`path.join` with posix separators followed by the `replace(/\\/g, "/")`
normalisation is plain `/`-joining. -/

mutual
inductive FSEntry where
  | file (name : String) (size : Nat) (modified : Nat) : FSEntry
  | dir (name : String) (listing : FSListing) : FSEntry

inductive FSListing where
  | unreadable : FSListing
  | nil : FSListing
  | cons (e : FSEntry) (rest : FSListing) : FSListing
end

/-- One node of the serialized tree: `{type:"dir", name, path, children}` or
`{type:"file", name, path, size, modified, url}`. -/
inductive Node where
  | dir (name : String) (path : String) (children : List Node) : Node
  | file (name : String) (path : String) (size : Nat) (modified : Nat)
      (url : String) : Node

def nodeIsDir : Node → Bool
  | .dir .. => true
  | .file .. => false

def nodeName : Node → String
  | .dir n .. => n
  | .file n .. => n

/-- `relPath ? path.join(relPath, name) : name`, slash-normalized. -/
def joinRel (rel n : String) : String :=
  if rel = "" then n else rel ++ "/" ++ n

/-- `name.startsWith(".")`: the hidden-entry marker. -/
def isHidden (n : String) : Bool :=
  match n.data with
  | [] => false
  | c :: _ => c == '.'

/-- Three-way lexicographic comparison of weight sequences. -/
def keyCmp : List Nat → List Nat → Int
  | [], [] => 0
  | [], _ :: _ => -1
  | _ :: _, [] => 1
  | c :: cs, d :: ds => if c < d then -1 else if d < c then 1 else keyCmp cs ds

/-- Collation table for the Vietnamese alphabet: each letter maps to
`(letter position, tone, case)`.  The letter positions follow the
Vietnamese alphabet (a ă â b c d đ e ê f g h i j k l m n o ô ơ p q r s t
u ư v w x y z, with f/j/w/z in their Latin slots), so each modified letter
(ă â đ ê ô ơ ư) sits adjacent to — directly after — its base letter rather
than at its raw code point.  Tone weights order the five tone marks after
the unmarked vowel (unmarked, grave, hook, tilde, acute, dot); case is
lowercase before uppercase. -/
def viWeights : List (Char × Nat × Nat × Nat) :=
  [('a', 1, 1, 1), ('à', 1, 2, 1), ('ả', 1, 3, 1), ('ã', 1, 4, 1), ('á', 1, 5, 1), ('ạ', 1, 6, 1),
   ('ă', 2, 1, 1), ('ằ', 2, 2, 1), ('ẳ', 2, 3, 1), ('ẵ', 2, 4, 1), ('ắ', 2, 5, 1), ('ặ', 2, 6, 1),
   ('â', 3, 1, 1), ('ầ', 3, 2, 1), ('ẩ', 3, 3, 1), ('ẫ', 3, 4, 1), ('ấ', 3, 5, 1), ('ậ', 3, 6, 1),
   ('e', 8, 1, 1), ('è', 8, 2, 1), ('ẻ', 8, 3, 1), ('ẽ', 8, 4, 1), ('é', 8, 5, 1), ('ẹ', 8, 6, 1),
   ('ê', 9, 1, 1), ('ề', 9, 2, 1), ('ể', 9, 3, 1), ('ễ', 9, 4, 1), ('ế', 9, 5, 1), ('ệ', 9, 6, 1),
   ('i', 13, 1, 1), ('ì', 13, 2, 1), ('ỉ', 13, 3, 1), ('ĩ', 13, 4, 1), ('í', 13, 5, 1), ('ị', 13, 6, 1),
   ('o', 19, 1, 1), ('ò', 19, 2, 1), ('ỏ', 19, 3, 1), ('õ', 19, 4, 1), ('ó', 19, 5, 1), ('ọ', 19, 6, 1),
   ('ô', 20, 1, 1), ('ồ', 20, 2, 1), ('ổ', 20, 3, 1), ('ỗ', 20, 4, 1), ('ố', 20, 5, 1), ('ộ', 20, 6, 1),
   ('ơ', 21, 1, 1), ('ờ', 21, 2, 1), ('ở', 21, 3, 1), ('ỡ', 21, 4, 1), ('ớ', 21, 5, 1), ('ợ', 21, 6, 1),
   ('u', 27, 1, 1), ('ù', 27, 2, 1), ('ủ', 27, 3, 1), ('ũ', 27, 4, 1), ('ú', 27, 5, 1), ('ụ', 27, 6, 1),
   ('ư', 28, 1, 1), ('ừ', 28, 2, 1), ('ử', 28, 3, 1), ('ữ', 28, 4, 1), ('ứ', 28, 5, 1), ('ự', 28, 6, 1),
   ('y', 32, 1, 1), ('ỳ', 32, 2, 1), ('ỷ', 32, 3, 1), ('ỹ', 32, 4, 1), ('ý', 32, 5, 1), ('ỵ', 32, 6, 1),
   ('A', 1, 1, 2), ('À', 1, 2, 2), ('Ả', 1, 3, 2), ('Ã', 1, 4, 2), ('Á', 1, 5, 2), ('Ạ', 1, 6, 2),
   ('Ă', 2, 1, 2), ('Ằ', 2, 2, 2), ('Ẳ', 2, 3, 2), ('Ẵ', 2, 4, 2), ('Ắ', 2, 5, 2), ('Ặ', 2, 6, 2),
   ('Â', 3, 1, 2), ('Ầ', 3, 2, 2), ('Ẩ', 3, 3, 2), ('Ẫ', 3, 4, 2), ('Ấ', 3, 5, 2), ('Ậ', 3, 6, 2),
   ('E', 8, 1, 2), ('È', 8, 2, 2), ('Ẻ', 8, 3, 2), ('Ẽ', 8, 4, 2), ('É', 8, 5, 2), ('Ẹ', 8, 6, 2),
   ('Ê', 9, 1, 2), ('Ề', 9, 2, 2), ('Ể', 9, 3, 2), ('Ễ', 9, 4, 2), ('Ế', 9, 5, 2), ('Ệ', 9, 6, 2),
   ('I', 13, 1, 2), ('Ì', 13, 2, 2), ('Ỉ', 13, 3, 2), ('Ĩ', 13, 4, 2), ('Í', 13, 5, 2), ('Ị', 13, 6, 2),
   ('O', 19, 1, 2), ('Ò', 19, 2, 2), ('Ỏ', 19, 3, 2), ('Õ', 19, 4, 2), ('Ó', 19, 5, 2), ('Ọ', 19, 6, 2),
   ('Ô', 20, 1, 2), ('Ồ', 20, 2, 2), ('Ổ', 20, 3, 2), ('Ỗ', 20, 4, 2), ('Ố', 20, 5, 2), ('Ộ', 20, 6, 2),
   ('Ơ', 21, 1, 2), ('Ờ', 21, 2, 2), ('Ở', 21, 3, 2), ('Ỡ', 21, 4, 2), ('Ớ', 21, 5, 2), ('Ợ', 21, 6, 2),
   ('U', 27, 1, 2), ('Ù', 27, 2, 2), ('Ủ', 27, 3, 2), ('Ũ', 27, 4, 2), ('Ú', 27, 5, 2), ('Ụ', 27, 6, 2),
   ('Ư', 28, 1, 2), ('Ừ', 28, 2, 2), ('Ử', 28, 3, 2), ('Ữ', 28, 4, 2), ('Ứ', 28, 5, 2), ('Ự', 28, 6, 2),
   ('Y', 32, 1, 2), ('Ỳ', 32, 2, 2), ('Ỷ', 32, 3, 2), ('Ỹ', 32, 4, 2), ('Ý', 32, 5, 2), ('Ỵ', 32, 6, 2),
   ('b', 4, 1, 1), ('c', 5, 1, 1), ('d', 6, 1, 1), ('đ', 7, 1, 1), ('f', 10, 1, 1),
   ('g', 11, 1, 1), ('h', 12, 1, 1), ('j', 14, 1, 1), ('k', 15, 1, 1), ('l', 16, 1, 1),
   ('m', 17, 1, 1), ('n', 18, 1, 1), ('p', 22, 1, 1), ('q', 23, 1, 1), ('r', 24, 1, 1),
   ('s', 25, 1, 1), ('t', 26, 1, 1), ('v', 29, 1, 1), ('w', 30, 1, 1), ('x', 31, 1, 1),
   ('z', 33, 1, 1),
   ('B', 4, 1, 2), ('C', 5, 1, 2), ('D', 6, 1, 2), ('Đ', 7, 1, 2), ('F', 10, 1, 2),
   ('G', 11, 1, 2), ('H', 12, 1, 2), ('J', 14, 1, 2), ('K', 15, 1, 2), ('L', 16, 1, 2),
   ('M', 17, 1, 2), ('N', 18, 1, 2), ('P', 22, 1, 2), ('Q', 23, 1, 2), ('R', 24, 1, 2),
   ('S', 25, 1, 2), ('T', 26, 1, 2), ('V', 29, 1, 2), ('W', 30, 1, 2), ('X', 31, 1, 2),
   ('Z', 33, 1, 2)]

/-- `(primary, secondary, tertiary)` collation weights of one character:
letters weigh by Vietnamese alphabet position (above every non-letter),
tone marks are secondary, case tertiary; a character outside the table
keeps code-point order among its kind, below the letters.  Every weight is
positive, so the `0` level separators of `viKey` sort shorter strings
first within a level. -/
def viWeightOf (c : Char) : Nat × Nat × Nat :=
  match viWeights.find? (fun p => p.1 == c) with
  | some p => (2000000 + p.2.1, p.2.2.1, p.2.2.2)
  | none => (100 + c.toNat, 1, 1)

/-- The collation sort key of a string: the whole primary sequence, then
the whole secondary (tone) sequence, then the whole tertiary (case)
sequence, separated by `0` — so any primary difference outranks every
tone difference, which outranks every case difference. -/
def viKey (s : String) : List Nat :=
  s.data.map (fun c => (viWeightOf c).1) ++
    0 :: s.data.map (fun c => (viWeightOf c).2.1) ++
      0 :: s.data.map (fun c => (viWeightOf c).2.2)

/-- Modelled from the spec: the external collator `a.localeCompare(b, "vi")`
(an ICU builtin, not part of this repository) used as the name comparator
at `src/api/index.js:79`.  Per the spec the comparison is "locale-aware
comparison for the Vietnamese locale (diacritics collate adjacent to their
base letters, not by raw code point)", via "an explicit collation
table/library"; the model compares the sort keys built from the `viWeights`
collation table. -/
def viCompare (a b : String) : Int :=
  keyCmp (viKey a) (viKey b)

/-- The sort comparator of `readComicsTree`:
`if (a.type !== b.type) return a.type === "dir" ? -1 : 1;
return a.name.localeCompare(b.name, "vi");` -/
def nodeCmp (a b : Node) : Int :=
  if nodeIsDir a != nodeIsDir b then (if nodeIsDir a then -1 else 1)
  else viCompare (nodeName a) (nodeName b)

/-- `a` may stay left of `b` under the comparator (comparator value `≤ 0`). -/
def nodeLE (a b : Node) : Bool :=
  decide (nodeCmp a b ≤ 0)

/-- Insert into a sorted run, keeping earlier elements left on ties: the
stable sort contract of `Array.prototype.sort`. -/
def insertNode (a : Node) : List Node → List Node
  | [] => [a]
  | b :: bs => if nodeLE a b then a :: b :: bs else b :: insertNode a bs

/-- Stable sort by `nodeCmp`, modelling `.sort((a, b) => ...)`. -/
def sortNodes : List Node → List Node
  | [] => []
  | a :: as => insertNode a (sortNodes as)

/-- The body of `readComicsTree`: walk the listing in readdir order, skip
hidden names, map files and directories to nodes (recursing into directory
listings, whose results are sorted), models `.filter(...).map(...)` before
the final `.sort`. -/
def buildNodes (baseUrl : String) : String → FSListing → List Node
  | _, .unreadable => []
  | _, .nil => []
  | relPath, .cons (.file n s m) rest =>
      if isHidden n then buildNodes baseUrl relPath rest
      else
        Node.file n (joinRel relPath n) s m (baseUrl ++ "/" ++ joinRel relPath n) ::
          buildNodes baseUrl relPath rest
  | relPath, .cons (.dir n l) rest =>
      if isHidden n then buildNodes baseUrl relPath rest
      else
        Node.dir n (joinRel relPath n)
            (sortNodes (buildNodes baseUrl (joinRel relPath n) l)) ::
          buildNodes baseUrl relPath rest

/-- `readComicsTree(dir, baseUrl, relPath)`: list, filter, map, sort; an
unreadable directory yields `[]` via the `catch`. -/
def readComicsTree (baseUrl relPath : String) (l : FSListing) : List Node :=
  sortNodes (buildNodes baseUrl relPath l)

/-- Response of `GET /api/library`: `{ baseUrl, items }`. -/
structure LibraryResponse where
  baseUrl : String
  items : List Node

/-- The `/api/library` handler: always replies with the built tree. -/
def libraryHandler (fs : FSListing) : LibraryResponse :=
  { baseUrl := "/comics", items := readComicsTree "/comics" "" fs }

theorem keyCmp_nil_nonpos (c : List Nat) : keyCmp [] c ≤ 0 := by
  cases c <;> norm_num [keyCmp]

theorem keyCmp_neg : ∀ a b : List Nat, keyCmp b a = - keyCmp a b := by
  intro a
  induction a with
  | nil => intro b; cases b <;> norm_num [keyCmp]
  | cons c cs ih =>
      intro b
      cases b with
      | nil => norm_num [keyCmp]
      | cons d ds =>
          rcases lt_trichotomy c d with h | h | h
          · simp [keyCmp, h, lt_asymm h]
          · subst h; simp [keyCmp, lt_irrefl, ih]
          · simp [keyCmp, h, lt_asymm h]

theorem keyCmp_trans :
    ∀ a b c : List Nat, keyCmp a b ≤ 0 → keyCmp b c ≤ 0 →
      keyCmp a c ≤ 0 := by
  intro a
  induction a with
  | nil => intro b c _ _; exact keyCmp_nil_nonpos c
  | cons x xs ih =>
      intro b c h1 h2
      cases b with
      | nil => norm_num [keyCmp] at h1
      | cons y ys =>
          cases c with
          | nil => norm_num [keyCmp] at h2
          | cons z zs =>
              rcases lt_trichotomy x y with hxy | hxy | hxy
              · rcases lt_trichotomy y z with hyz | hyz | hyz
                · have : x < z := lt_trans hxy hyz
                  simp [keyCmp, this]
                · subst hyz; simp [keyCmp, hxy]
                · simp [keyCmp, hyz, lt_asymm hyz] at h2
              · subst hxy
                simp only [keyCmp, lt_irrefl, if_false] at h1
                rcases lt_trichotomy x z with hxz | hxz | hxz
                · simp [keyCmp, hxz]
                · subst hxz
                  simp only [keyCmp, lt_irrefl, if_false] at h2 ⊢
                  exact ih ys zs h1 h2
                · simp [keyCmp, hxz, lt_asymm hxz] at h2
              · simp [keyCmp, hxy, lt_asymm hxy] at h1

theorem nodeLE_iff {a b : Node} : nodeLE a b = true ↔ nodeCmp a b ≤ 0 := by
  simp [nodeLE]

theorem viCompare_total (s t : String) : viCompare s t ≤ 0 ∨ viCompare t s ≤ 0 := by
  rcases le_or_lt (keyCmp (viKey s) (viKey t)) 0 with h | h
  · exact Or.inl h
  · right
    rw [viCompare, keyCmp_neg]
    omega

theorem nodeLE_total (a b : Node) : nodeLE a b = true ∨ nodeLE b a = true := by
  rw [nodeLE_iff, nodeLE_iff]
  cases ha : nodeIsDir a <;> cases hb : nodeIsDir b
  · simpa [nodeCmp, ha, hb] using viCompare_total (nodeName a) (nodeName b)
  · right; norm_num [nodeCmp, ha, hb]
  · left; norm_num [nodeCmp, ha, hb]
  · simpa [nodeCmp, ha, hb] using viCompare_total (nodeName a) (nodeName b)

theorem nodeLE_trans {a b c : Node} (h1 : nodeLE a b = true)
    (h2 : nodeLE b c = true) : nodeLE a c = true := by
  rw [nodeLE_iff] at h1 h2 ⊢
  cases ha : nodeIsDir a <;> cases hb : nodeIsDir b <;> cases hc : nodeIsDir c
  · simp [nodeCmp, ha, hb, hc, viCompare] at h1 h2 ⊢
    exact keyCmp_trans _ _ _ h1 h2
  · simp [nodeCmp, hb, hc] at h2
  · simp [nodeCmp, ha, hb] at h1
  · simp [nodeCmp, ha, hb] at h1
  · norm_num [nodeCmp, ha, hc]
  · simp [nodeCmp, hb, hc] at h2
  · norm_num [nodeCmp, ha, hc]
  · simp [nodeCmp, ha, hb, hc, viCompare] at h1 h2 ⊢
    exact keyCmp_trans _ _ _ h1 h2

theorem mem_insertNode {x a : Node} :
    ∀ {l : List Node}, x ∈ insertNode a l → x = a ∨ x ∈ l := by
  intro l
  induction l with
  | nil => intro h; simp [insertNode] at h; exact Or.inl h
  | cons b bs ih =>
      intro h
      rw [insertNode] at h
      by_cases hle : nodeLE a b = true
      · simp only [hle, if_true] at h
        rcases List.mem_cons.mp h with h | h
        · exact Or.inl h
        · exact Or.inr h
      · simp only [hle, if_false] at h
        rcases List.mem_cons.mp h with h | h
        · exact Or.inr (h ▸ List.mem_cons_self b bs)
        · rcases ih h with h | h
          · exact Or.inl h
          · exact Or.inr (List.mem_cons_of_mem b h)

theorem pairwise_insertNode (a : Node) :
    ∀ {l : List Node}, l.Pairwise (fun x y => nodeLE x y = true) →
      (insertNode a l).Pairwise (fun x y => nodeLE x y = true) := by
  intro l
  induction l with
  | nil => intro _; simp [insertNode]
  | cons b bs ih =>
      intro hl
      rcases List.pairwise_cons.mp hl with ⟨hb, hbs⟩
      rw [insertNode]
      by_cases hle : nodeLE a b = true
      · simp only [hle, if_true]
        refine List.pairwise_cons.mpr ⟨?_, hl⟩
        intro x hx
        rcases List.mem_cons.mp hx with h | h
        · exact h ▸ hle
        · exact nodeLE_trans hle (hb x h)
      · simp only [hle, if_false]
        refine List.pairwise_cons.mpr ⟨?_, ih hbs⟩
        intro x hx
        rcases mem_insertNode hx with h | h
        · have hba : nodeLE b a = true := by
            rcases nodeLE_total a b with h' | h'
            · exact absurd h' hle
            · exact h'
          rw [h]
          exact hba
        · exact hb x h

theorem sortNodes_pairwise (l : List Node) :
    (sortNodes l).Pairwise (fun x y => nodeLE x y = true) := by
  induction l with
  | nil => simp [sortNodes]
  | cons a rest ih => exact pairwise_insertNode a ih

theorem nodeLE_dir_left {x y : Node} (h : nodeLE x y = true) :
    nodeIsDir y = true → nodeIsDir x = true := by
  intro hy
  cases hx : nodeIsDir x
  · rw [nodeLE_iff] at h
    simp [nodeCmp, hx, hy] at h
  · rfl

theorem nodeLE_name_le {x y : Node} (h : nodeLE x y = true)
    (ht : nodeIsDir x = nodeIsDir y) :
    viCompare (nodeName x) (nodeName y) ≤ 0 := by
  rw [nodeLE_iff] at h
  simpa [nodeCmp, ht] using h

/-- The filesystem of the spec's ordering example: files `b.txt`, `a.txt`
and subdirectory `c`, in that readdir order. -/
def exampleListing : FSListing :=
  .cons (.file "b.txt" 1 2) (.cons (.file "a.txt" 3 4) (.cons (.dir "c" .nil) .nil))

/-- C4: every sequence the tree builder returns puts each dir node before
each file node regardless of names, and within the same type entries are
ordered by the (modelled) Vietnamese-locale name comparison; the spec's
example — files `b.txt`, `a.txt` and subdirectory `c` — yields
`[dir "c", file "a.txt", file "b.txt"]`. -/
theorem readComicsTree_ordering :
    (∀ (baseUrl relPath : String) (l : FSListing),
      (readComicsTree baseUrl relPath l).Pairwise
        (fun x y => (nodeIsDir y = true → nodeIsDir x = true) ∧
          (nodeIsDir x = nodeIsDir y →
            viCompare (nodeName x) (nodeName y) ≤ 0))) ∧
    readComicsTree "/comics" "" exampleListing =
      [Node.dir "c" "c" [], Node.file "a.txt" "a.txt" 3 4 "/comics/a.txt",
       Node.file "b.txt" "b.txt" 1 2 "/comics/b.txt"] := by
  constructor
  · intro baseUrl relPath l
    refine (sortNodes_pairwise _).imp ?_
    intro x y hxy
    exact ⟨nodeLE_dir_left hxy, nodeLE_name_le hxy⟩
  · rfl

/-- A root whose readdir order is an unreadable subdirectory `bad` followed
by a readable sibling file `sib.txt`. -/
def badRootListing : FSListing :=
  .cons (.dir "bad" .unreadable) (.cons (.file "sib.txt" 7 8) .nil)

/-- C5: an unreadable directory contributes an empty sequence instead of
propagating the error, and with an unreadable subdirectory nested under a
readable root the `/api/library` handler still answers, the root still
listing the unreadable directory's sibling while the unreadable directory
appears with empty children. -/
theorem readComicsTree_fault_containment :
    (∀ (baseUrl relPath : String),
      readComicsTree baseUrl relPath .unreadable = []) ∧
    libraryHandler badRootListing =
      { baseUrl := "/comics",
        items := [Node.dir "bad" "bad" [],
                  Node.file "sib.txt" "sib.txt" 7 8 "/comics/sib.txt"] } :=
  ⟨fun _ _ => rfl, rfl⟩

/-! ## Query handlers

Model of the `/api/search` and `/api/trending` request flows.  A handler is
a function of the request parameters, the cache state, the current time, and
the upstream payload (the `data` of a successful axios reply:
`none` models `!data?.data`, `some none` models `data.data` present but
`data.data.videos` absent, `some (some vs)` a recognizable video list).
It yields the JSON reply, the cache state afterwards, and whether the
upstream collaborator was called. -/

/-- The object stored in the cache and replayed on hits:
`{ videos, count, query, cached }` (`query` absent for trending). -/
structure StoredResult where
  videos : List VideoRecord
  count : Nat
  query : Option String
  cached : Bool
deriving Repr, DecidableEq

instance [DecidableEq α] : DecidableEq (Cache α) :=
  inferInstanceAs (DecidableEq (List (String × CacheEntry α)))

/-- Superset of every JSON body the two handlers emit; a field the emitted
object lacks is `none`.  The `example` field of the missing-`q` reply is
`examplePayload` (`example` is reserved in Lean). -/
structure ApiResponse where
  status : Nat
  videos : List VideoRecord
  count : Nat
  query : Option String
  cached : Option Bool
  message : Option String
  error : Option String
  examplePayload : Option String
deriving Repr, DecidableEq

/-- `400 { error: "Missing query parameter: q", example: "/api/search?q=spider+man" }` -/
def respMissingQ : ApiResponse :=
  ⟨400, [], 0, none, none, none, some "Missing query parameter: q",
   some "/api/search?q=spider+man"⟩

/-- `400 { error: "Query too long (max 100 characters)" }` -/
def respTooLong : ApiResponse :=
  ⟨400, [], 0, none, none, none, some "Query too long (max 100 characters)", none⟩

/-- `res.json({...result})` or, with `b = true`, the cache-hit merge
`res.json({ ...cached, cached: true })`. -/
def respOfStored (s : StoredResult) (b : Bool) : ApiResponse :=
  ⟨200, s.videos, s.count, s.query, some b, none, none, none⟩

/-- The empty-result reply `{ videos: [], count: 0, (query,) message }`;
note it carries no `cached` field. -/
def respNoVideos (q : Option String) (msg : String) : ApiResponse :=
  ⟨200, [], 0, q, none, some msg, none, none⟩

/-- What a handler leaves behind: reply, cache state, and whether the
upstream API was contacted. -/
structure HandlerResult where
  resp : ApiResponse
  cache : Cache StoredResult
  calledUpstream : Bool

/-- `` `search:${q}:${quality}` `` -/
def searchCacheKey (q quality : String) : String :=
  "search:" ++ q ++ ":" ++ quality

/-- The `/api/search` handler on the success path of the upstream call
(timeout/rate-limit/error translation happens in the `catch` and is outside
this model).  `q = none` models the parameter being absent; `!q` also
rejects a present-but-empty `q`. -/
def searchHandler (q : Option String) (quality : String) (c : Cache StoredResult)
    (now : Time) (upstream : Option (Option (List Upstream))) : HandlerResult :=
  match q with
  | none => ⟨respMissingQ, c, false⟩
  | some qs =>
      if qs = "" then ⟨respMissingQ, c, false⟩
      else if qs.length > 100 then ⟨respTooLong, c, false⟩
      else
        let key := searchCacheKey qs quality
        match getCached c key now with
        | (some stored, c') => ⟨respOfStored stored true, c', false⟩
        | (none, c') =>
            match upstream with
            | none => ⟨respNoVideos (some qs) "No videos found", c', true⟩
            | some none => ⟨respNoVideos (some qs) "No videos found", c', true⟩
            | some (some vs) =>
                let videos := normalizeList vs
                let result : StoredResult := ⟨videos, videos.length, some qs, false⟩
                ⟨respOfStored result false, setCache c' key result now, true⟩

/-- The `/api/trending` map callback: identical to the search one except
that it builds no `create_time` field. -/
def normalizeVideoTrending (v : Upstream) : VideoRecord :=
  { normalizeVideo v with create_time := none }

/-- `data.data.videos.map(...).filter(v => v.video_url)` for `/api/trending`. -/
def normalizeListTrending (vs : List Upstream) : List VideoRecord :=
  (vs.map normalizeVideoTrending).filter (fun r => truthyStr r.video_url)

/-- The `/api/trending` handler on the success path of the upstream call. -/
def trendingHandler (c : Cache StoredResult) (now : Time)
    (upstream : Option (Option (List Upstream))) : HandlerResult :=
  let key := "trending"
  match getCached c key now with
  | (some stored, c') => ⟨respOfStored stored true, c', false⟩
  | (none, c') =>
      match upstream with
      | none => ⟨respNoVideos none "No trending videos found", c', true⟩
      | some none => ⟨respNoVideos none "No trending videos found", c', true⟩
      | some (some vs) =>
          let videos := normalizeListTrending vs
          let result : StoredResult := ⟨videos, videos.length, none, false⟩
          ⟨respOfStored result false, setCache c' key result now, true⟩

theorem getCached_of_find_none {c : Cache α} {k : String} (now : Time)
    (h : cacheFind c k = none) : getCached c k now = (none, c) := by
  simp [getCached, h]

/-- C7 counterexample: the present-but-empty query `q = ""` has length
`0 ≤ 100`, yet `/api/search` rejects it with status 400 (the `!q` check
treats the empty string as missing), refuting "a q of length 100 or less
passes validation". -/
theorem searchHandler_rejects_empty_q :
    (searchHandler (some "") "low" [] 0 none).resp.status = 400 ∧
    ("" : String).length ≤ 100 :=
  ⟨rfl, by decide⟩

/-- C7 (amended): a request with `q` absent is rejected with 400 and the
example payload; a `q` longer than 100 characters is rejected with 400; in
both cases before any cache or upstream interaction (cache unchanged, no
upstream call); and a NON-EMPTY `q` of length at most 100 passes validation
(the empty string, though of length `0 ≤ 100`, is rejected as missing). -/
theorem searchHandler_validation (qs quality : String) (c : Cache StoredResult)
    (now : Time) (up : Option (Option (List Upstream))) :
    ((searchHandler none quality c now up).resp.status = 400 ∧
     (searchHandler none quality c now up).resp.examplePayload =
       some "/api/search?q=spider+man" ∧
     (searchHandler none quality c now up).cache = c ∧
     (searchHandler none quality c now up).calledUpstream = false) ∧
    (qs.length > 100 →
      (searchHandler (some qs) quality c now up).resp.status = 400 ∧
      (searchHandler (some qs) quality c now up).cache = c ∧
      (searchHandler (some qs) quality c now up).calledUpstream = false) ∧
    (qs ≠ "" → qs.length ≤ 100 →
      (searchHandler (some qs) quality c now up).resp.status = 200) := by
  refine ⟨⟨rfl, rfl, rfl, rfl⟩, ?_, ?_⟩
  · intro hlen
    have hne : qs ≠ "" := by
      intro h
      rw [h] at hlen
      simp at hlen
    simp [searchHandler, hne, hlen, respTooLong]
  · intro hne hlen
    have h1 : ¬ (qs.length > 100) := by omega
    simp only [searchHandler, hne, if_false, h1, if_true]
    rcases hg : getCached c (searchCacheKey qs quality) now with ⟨v, c'⟩
    cases v with
    | some stored => simp [hg, respOfStored]
    | none =>
        cases up with
        | none => simp [hg, respNoVideos]
        | some o =>
            cases o with
            | none => simp [hg, respNoVideos]
            | some vs => simp [hg, respOfStored]

/-- Witness for C7: the missing-`q` rejection, the rejection of a concrete
101-character query, and acceptance of the one-character query `"a"`. -/
theorem searchHandler_validation_witness :
    (searchHandler none "low" [] 0 none).resp.status = 400 ∧
    (searchHandler (some (String.mk (List.replicate 101 'x'))) "low" [] 0 none).resp.status = 400 ∧
    (searchHandler (some "a") "low" [] 0 none).resp.status = 200 :=
  ⟨(searchHandler_validation "a" "low" [] 0 none).1.1,
   ((searchHandler_validation (String.mk (List.replicate 101 'x')) "low" [] 0 none).2.1
      (by decide)).1,
   (searchHandler_validation "a" "low" [] 0 none).2.2 (by decide) (by decide)⟩

/-- C8: on a cache hit, `/api/search` and `/api/trending` reply with the
stored result's fields unchanged except for `cached`, which the shallow
merge `{ ...cached, cached: true }` forces to `true` whatever the stored
object's own `cached` field was. -/
theorem hit_response_merges_cached (qs quality : String) (c : Cache StoredResult)
    (now : Time) (up : Option (Option (List Upstream)))
    (stored : StoredResult) (c₂ : Cache StoredResult) :
    (qs ≠ "" → qs.length ≤ 100 →
      getCached c (searchCacheKey qs quality) now = (some stored, c₂) →
      (searchHandler (some qs) quality c now up).resp.videos = stored.videos ∧
      (searchHandler (some qs) quality c now up).resp.count = stored.count ∧
      (searchHandler (some qs) quality c now up).resp.query = stored.query ∧
      (searchHandler (some qs) quality c now up).resp.cached = some true ∧
      (searchHandler (some qs) quality c now up).calledUpstream = false) ∧
    (getCached c "trending" now = (some stored, c₂) →
      (trendingHandler c now up).resp.videos = stored.videos ∧
      (trendingHandler c now up).resp.count = stored.count ∧
      (trendingHandler c now up).resp.query = stored.query ∧
      (trendingHandler c now up).resp.cached = some true ∧
      (trendingHandler c now up).calledUpstream = false) := by
  constructor
  · intro hne hlen hg
    have h1 : ¬ (qs.length > 100) := by omega
    simp [searchHandler, hne, h1, hg, respOfStored]
  · intro hg
    simp [trendingHandler, hg, respOfStored]

/-- A concrete stored search result whose own `cached` field is `false`. -/
def storedSearch : StoredResult := ⟨[], 0, some "a", false⟩

/-- A concrete stored trending result whose own `cached` field is `false`. -/
def storedTrending : StoredResult := ⟨[], 0, none, false⟩

/-- Witness for C8: hits on concretely populated caches for both endpoints,
each stored with `cached: false`, replied with `cached: true`. -/
theorem hit_response_merges_cached_witness :
    (searchHandler (some "a") "low"
        (setCache [] (searchCacheKey "a" "low") storedSearch 0) 0 none).resp.cached
      = some true ∧
    (trendingHandler (setCache [] "trending" storedTrending 0) 0 none).resp.cached
      = some true :=
  ⟨((hit_response_merges_cached "a" "low"
        (setCache [] (searchCacheKey "a" "low") storedSearch 0) 0 none storedSearch
        (setCache [] (searchCacheKey "a" "low") storedSearch 0)).1
      (by decide) (by decide) rfl).2.2.2.1,
   ((hit_response_merges_cached "a" "low"
        (setCache [] "trending" storedTrending 0) 0 none storedTrending
        (setCache [] "trending" storedTrending 0)).2 rfl).2.2.2.1⟩

/-- C9: the search cache-key derivation is not injective — the two distinct
parameter pairs `(q, quality) = ("a:high", "low")` and `("a", "high:low")`
produce the same key, and a response cached by a request with the first pair
is replayed (as a hit, `cached: true`) to a request with the second pair. -/
theorem searchCacheKey_not_injective :
    searchCacheKey "a:high" "low" = searchCacheKey "a" "high:low" ∧
    (("a:high", "low") : String × String) ≠ ("a", "high:low") ∧
    (searchHandler (some "a") "high:low"
        (searchHandler (some "a:high") "low" [] 0 (some (some [playOnly]))).cache
        0 none).resp.cached = some true :=
  ⟨rfl, by decide, rfl⟩

/-- C10: when the upstream payload has no recognizable video list, the
empty-result reply is not written to the cache (with no entry under the key
beforehand, the cache is returned exactly unchanged), carries no `cached`
field, and a subsequent identical request misses again and calls upstream;
likewise for `/api/trending`. -/
theorem noVideos_reply_not_cached (qs quality : String) (c : Cache StoredResult)
    (now now' : Time) (pay up' : Option (Option (List Upstream))) :
    (qs ≠ "" → qs.length ≤ 100 →
      cacheFind c (searchCacheKey qs quality) = none →
      (pay = none ∨ pay = some none) →
      (searchHandler (some qs) quality c now pay).cache = c ∧
      (searchHandler (some qs) quality c now pay).resp.cached = none ∧
      (searchHandler (some qs) quality c now pay).resp.videos = [] ∧
      (searchHandler (some qs) quality c now pay).resp.count = 0 ∧
      (searchHandler (some qs) quality c now pay).calledUpstream = true ∧
      (searchHandler (some qs) quality c now' up').calledUpstream = true) ∧
    (cacheFind c "trending" = none →
      (pay = none ∨ pay = some none) →
      (trendingHandler c now pay).cache = c ∧
      (trendingHandler c now pay).resp.cached = none ∧
      (trendingHandler c now pay).calledUpstream = true ∧
      (trendingHandler c now' up').calledUpstream = true) := by
  constructor
  · intro hne hlen hfind hpay
    have h1 : ¬ (qs.length > 100) := by omega
    have hg := getCached_of_find_none (c := c) now hfind
    have hg' := getCached_of_find_none (c := c) now' hfind
    have hmain :
        (searchHandler (some qs) quality c now pay).cache = c ∧
        (searchHandler (some qs) quality c now pay).resp.cached = none ∧
        (searchHandler (some qs) quality c now pay).resp.videos = [] ∧
        (searchHandler (some qs) quality c now pay).resp.count = 0 ∧
        (searchHandler (some qs) quality c now pay).calledUpstream = true := by
      rcases hpay with h | h <;> simp [searchHandler, hne, h1, hg, h, respNoVideos]
    have hnext : (searchHandler (some qs) quality c now' up').calledUpstream = true := by
      simp only [searchHandler, hne, if_false, h1, if_true, hg']
      cases up' with
      | none => simp
      | some o => cases o <;> simp
    exact ⟨hmain.1, hmain.2.1, hmain.2.2.1, hmain.2.2.2.1, hmain.2.2.2.2, hnext⟩
  · intro hfind hpay
    have hg := getCached_of_find_none (c := c) now hfind
    have hg' := getCached_of_find_none (c := c) now' hfind
    have hmain :
        (trendingHandler c now pay).cache = c ∧
        (trendingHandler c now pay).resp.cached = none ∧
        (trendingHandler c now pay).calledUpstream = true := by
      rcases hpay with h | h <;> simp [trendingHandler, hg, h, respNoVideos]
    have hnext : (trendingHandler c now' up').calledUpstream = true := by
      simp only [trendingHandler, hg']
      cases up' with
      | none => simp
      | some o => cases o <;> simp
    exact ⟨hmain.1, hmain.2.1, hmain.2.2, hnext⟩

/-- Witness for C10: both handlers on the empty cache and an upstream
payload with `data.data` absent. -/
theorem noVideos_reply_not_cached_witness :
    (searchHandler (some "a") "low" [] 0 none).cache = [] ∧
    (searchHandler (some "a") "low" [] 0 none).resp.cached = none ∧
    (trendingHandler [] 0 none).cache = [] ∧
    (trendingHandler [] 0 none).calledUpstream = true :=
  ⟨((noVideos_reply_not_cached "a" "low" [] 0 0 none none).1
      (by decide) (by decide) rfl (Or.inl rfl)).1,
   ((noVideos_reply_not_cached "a" "low" [] 0 0 none none).1
      (by decide) (by decide) rfl (Or.inl rfl)).2.1,
   ((noVideos_reply_not_cached "a" "low" [] 0 0 none none).2 rfl (Or.inl rfl)).1,
   ((noVideos_reply_not_cached "a" "low" [] 0 0 none none).2 rfl (Or.inl rfl)).2.2.1⟩

end B6Tok
